import Mathlib

/-!
Verification of the Codex pricing resolver (`src/apps/codex/src/pricing.ts`).

The resolver maps a bare model name to a normalized pricing record
(costs per million tokens) through a multi-stage fallback: a strict
exact-key lookup over the catalog (bare name, then provider-prefixed
names), an alias sub-path (strict then relaxed lookup on a statically
configured alias), and a final relaxed lookup on the original name.

Shallow embedding choices:
* per-token costs are rationals (`ℚ`); absence is `Option`;
* the catalog accessor (`LiteLLMPricingFetcher`, external to the
  repository) is a record of a batch result and a relaxed single-model
  query, each returning `Except ε _` — an `ε` error models the typed
  retrieval failure (`Result.isFailure` / `throw lookup.error` in the
  source);
* `getPricing` returns `Except (PricingError ε) ModelPricing`, where
  `PricingError.retrieval e` carries the accessor's error unmodified
  (the source re-throws the error object itself) and
  `PricingError.notFound model` is the resolver's own
  `Pricing not found for model` error.
-/

namespace CodexPricing

/-- A raw catalog entry (LiteLLM shape): the three optional per-token
cost fields used by the resolver, plus the token-limit metadata fields
that appear in catalog entries but are irrelevant to pricing. -/
structure LiteLLMModelPricing where
  input_cost_per_token : Option ℚ
  output_cost_per_token : Option ℚ
  cache_read_input_token_cost : Option ℚ
  max_tokens : Option ℕ
  max_input_tokens : Option ℕ
  max_output_tokens : Option ℕ
deriving DecidableEq, Repr

/-- The normalized pricing record returned on success: all three
fields always present, in currency per million tokens. -/
structure ModelPricing where
  inputCostPerMToken : ℚ
  cachedInputCostPerMToken : ℚ
  outputCostPerMToken : ℚ
deriving DecidableEq, Repr

/-- `MILLION` from `_consts.ts`. -/
def MILLION : ℚ := 1000000

/-- Line 9 of the source: the ordered provider-prefix list. -/
def CODEX_PROVIDER_PREFIXES : List String :=
  ["openai/", "azure/", "openrouter/openai/"]

/-- Lines 10–13: the static alias table. -/
def CODEX_MODEL_ALIASES_MAP : List (String × String) :=
  [("gpt-5-codex", "gpt-5"), ("gpt-5.3-codex", "gpt-5.2-codex")]

/-- Lines 15–18: `toPerMillion(value, fallback)`;
`(value ?? fallback ?? 0) * MILLION`. -/
def toPerMillion (value : Option ℚ) (fallback : Option ℚ) : ℚ :=
  (match value with
    | some v => v
    | none =>
      match fallback with
      | some fb => fb
      | none => 0) * MILLION

/-- Lines 20–27: an entry is complete iff both `input_cost_per_token`
and `output_cost_per_token` are present; a null entry is incomplete. -/
def hasCompleteTokenPricing : Option LiteLLMModelPricing → Bool
  | none => false
  | some p => p.input_cost_per_token.isSome && p.output_cost_per_token.isSome

/-- The catalog accessor (the `LiteLLMPricingFetcher` collaborator,
external to this repository): an exact-key batch result and a relaxed
single-model query, each of which may fail with a typed error `ε`. -/
structure LiteLLMPricingFetcher (ε : Type) where
  fetchModelPricing : Except ε (List (String × LiteLLMModelPricing))
  getModelPricing : String → Except ε (Option LiteLLMModelPricing)

/-- Errors observable from `getPricing`: the accessor's error
propagated unmodified, or the resolver's own not-found error carrying
the requested model name (line 102). -/
inductive PricingError (ε : Type) where
  | retrieval (e : ε)
  | notFound (model : String)
deriving DecidableEq, Repr

/-- Line 59: `[model, ...CODEX_PROVIDER_PREFIXES.map(prefix => prefix + model)]`. -/
def strictCandidates (model : String) : List String :=
  model :: CODEX_PROVIDER_PREFIXES.map (fun pre => pre ++ model)

/-- Lines 60–67: the `for` loop over candidates — return the entry of
the first candidate key that exists in the map, else null. -/
def firstCandidatePricing (pricingMap : List (String × LiteLLMModelPricing)) :
    List String → Option LiteLLMModelPricing
  | [] => none
  | candidate :: rest =>
    match pricingMap.lookup candidate with
    | some pricing => some pricing
    | none => firstCandidatePricing pricingMap rest

/-- Lines 52–68: `getStrictPricing` — fetch the batch map (propagating
its error), then scan the candidate keys. -/
def getStrictPricing {ε : Type} (f : LiteLLMPricingFetcher ε) (model : String) :
    Except ε (Option LiteLLMModelPricing) :=
  match f.fetchModelPricing with
  | .error e => .error e
  | .ok pricingMap => .ok (firstCandidatePricing pricingMap (strictCandidates model))

/-- Lines 70–76: `getRelaxedPricing` — the accessor's relaxed
single-model lookup, its error propagated. -/
def getRelaxedPricing {ε : Type} (f : LiteLLMPricingFetcher ε) (model : String) :
    Except ε (Option LiteLLMModelPricing) :=
  f.getModelPricing model

/-- Lines 105–112: conversion of the accepted entry; the cached-input
cost falls back to the entry's own input cost. -/
def normalizePricing (p : LiteLLMModelPricing) : ModelPricing :=
  { inputCostPerMToken := toPerMillion p.input_cost_per_token none
    cachedInputCostPerMToken :=
      toPerMillion p.cache_read_input_token_cost p.input_cost_per_token
    outputCostPerMToken := toPerMillion p.output_cost_per_token none }

/-- Lines 78–113: `getPricing` — the full resolution algorithm.
`pricing0` is the step-1 strict result; `afterAlias` is the value of
the mutable `pricing` variable after the alias block (lines 81–92);
`afterRelaxed` after the relaxed block (lines 94–99); then the final
completeness check and conversion (lines 101–112). -/
def getPricing {ε : Type} (f : LiteLLMPricingFetcher ε) (model : String) :
    Except (PricingError ε) ModelPricing :=
  match getStrictPricing f model with
  | .error e => .error (.retrieval e)
  | .ok pricing0 =>
    let afterAlias : Except (PricingError ε) (Option LiteLLMModelPricing) :=
      if hasCompleteTokenPricing pricing0 then .ok pricing0
      else
        match CODEX_MODEL_ALIASES_MAP.lookup model with
        | none => .ok pricing0
        | some aliasName =>
          match getStrictPricing f aliasName with
          | .error e => .error (.retrieval e)
          | .ok aliasStrict =>
            match (if hasCompleteTokenPricing aliasStrict then .ok aliasStrict
                   else getRelaxedPricing f aliasName) with
            | .error e => .error (.retrieval e)
            | .ok aliasPricing =>
              .ok (if hasCompleteTokenPricing aliasPricing then aliasPricing
                   else pricing0)
    match afterAlias with
    | .error e => .error e
    | .ok pricing1 =>
      let afterRelaxed : Except (PricingError ε) (Option LiteLLMModelPricing) :=
        if hasCompleteTokenPricing pricing1 then .ok pricing1
        else
          match getRelaxedPricing f model with
          | .error e => .error (.retrieval e)
          | .ok relaxedPricing =>
            .ok (if hasCompleteTokenPricing relaxedPricing then relaxedPricing
                 else pricing1)
      match afterRelaxed with
      | .error e => .error e
      | .ok pricing2 =>
        match pricing2 with
        | none => .error (.notFound model)
        | some p =>
          if hasCompleteTokenPricing (some p) then .ok (normalizePricing p)
          else .error (.notFound model)

/-- The alias sub-path (lines 81–92) fails to produce a complete
entry without raising: either the model has no alias, or the alias's
strict result is incomplete and its relaxed lookup returns without
error a non-complete result. -/
def aliasPathFails {ε : Type} (f : LiteLLMPricingFetcher ε)
    (pm : List (String × LiteLLMModelPricing)) (model : String) : Prop :=
  CODEX_MODEL_ALIASES_MAP.lookup model = none ∨
  ∃ a, CODEX_MODEL_ALIASES_MAP.lookup model = some a ∧
    hasCompleteTokenPricing (firstCandidatePricing pm (strictCandidates a)) = false ∧
    ∃ ra, f.getModelPricing a = .ok ra ∧ hasCompleteTokenPricing ra = false

/-! ### Concrete catalogs and fetchers used by the witnesses -/

/-- Concrete exact-match catalog: a complete `gpt-5` entry. -/
def pmExact : List (String × LiteLLMModelPricing) :=
  [("gpt-5", ⟨some 2, some 3, some 5, none, none, none⟩)]

/-- A fetcher whose batch map is `pmExact` and whose relaxed lookup
always returns null. -/
def fExact : LiteLLMPricingFetcher String :=
  ⟨.ok pmExact, fun _ => .ok none⟩

/-- Catalog from the spec's alias-fallback-on-partial-entry example:
`gpt-5.3-codex` has only token-limit fields, `gpt-5.2-codex` is
complete. -/
def pmPartial : List (String × LiteLLMModelPricing) :=
  [("gpt-5.3-codex", ⟨none, none, none, some 128000, some 128000, some 128000⟩),
   ("gpt-5.2-codex", ⟨some 2, some 4, some 1, none, none, none⟩)]

/-- Fetcher over `pmPartial` with a null relaxed lookup. -/
def fPartial : LiteLLMPricingFetcher String :=
  ⟨.ok pmPartial, fun _ => .ok none⟩

/-- Catalog from the spec's provider-prefix example: `openai/gpt-4`
present, bare `gpt-4` absent. -/
def pmPrefixed : List (String × LiteLLMModelPricing) :=
  [("openai/gpt-4", ⟨some 7, some 11, none, none, none, none⟩)]

/-- Fetcher over `pmPrefixed` with a null relaxed lookup. -/
def fPrefixed : LiteLLMPricingFetcher String :=
  ⟨.ok pmPrefixed, fun _ => .ok none⟩

/-- A fetcher over an empty catalog whose relaxed lookup returns null. -/
def fEmpty : LiteLLMPricingFetcher String :=
  ⟨.ok [], fun _ => .ok none⟩

/-- A fetcher whose batch fetch fails with a retrieval error. -/
def fFetchErr : LiteLLMPricingFetcher String :=
  ⟨.error "network failure", fun _ => .ok none⟩

/-- A fetcher over an empty catalog whose relaxed lookup fails with a
retrieval error. -/
def fRelaxedErr : LiteLLMPricingFetcher String :=
  ⟨.ok [], fun _ => .error "parse failure"⟩

/-- A fetcher over an empty catalog whose relaxed lookup knows a
complete `gpt-5` entry (and nothing else): only the alias-relaxed
avenue can succeed for `gpt-5-codex`. -/
def fAliasRelaxed : LiteLLMPricingFetcher String :=
  ⟨.ok [], fun m =>
    if m = "gpt-5" then .ok (some ⟨some 2, some 3, none, none, none, none⟩)
    else .ok none⟩

/-! ### Resolution-path lemmas

One lemma per leaf of the decision tree of `getPricing`, all assuming
the batch fetch succeeded with map `pm`. Together they cover every
behaviour of the resolver and are the shared basis for the claims. -/

/-- If the step-1 strict result is a complete entry, it is converted
and returned; no hypothesis on the relaxed query is needed because no
further lookup takes part in the result. -/
theorem resolve_strict_complete {ε : Type} (f : LiteLLMPricingFetcher ε)
    (pm : List (String × LiteLLMModelPricing)) (model : String)
    (p : LiteLLMModelPricing)
    (hfetch : f.fetchModelPricing = .ok pm)
    (hp : firstCandidatePricing pm (strictCandidates model) = some p)
    (hc : hasCompleteTokenPricing (some p) = true) :
    getPricing f model = .ok (normalizePricing p) := by
  simp [getPricing, getStrictPricing, hfetch, hp, hc]

/-- If step 1 is incomplete but the alias's strict lookup yields a
complete entry, that entry is converted and returned; no hypothesis on
either relaxed query is needed. -/
theorem resolve_alias_strict_complete {ε : Type} (f : LiteLLMPricingFetcher ε)
    (pm : List (String × LiteLLMModelPricing)) (model a : String)
    (q : LiteLLMModelPricing)
    (hfetch : f.fetchModelPricing = .ok pm)
    (h0 : hasCompleteTokenPricing (firstCandidatePricing pm (strictCandidates model)) = false)
    (hal : CODEX_MODEL_ALIASES_MAP.lookup model = some a)
    (hq : firstCandidatePricing pm (strictCandidates a) = some q)
    (hcq : hasCompleteTokenPricing (some q) = true) :
    getPricing f model = .ok (normalizePricing q) := by
  simp [getPricing, getStrictPricing, hfetch, h0, hal, hq, hcq]

/-- If step 1 and the alias's strict lookup are incomplete but the
alias's relaxed lookup yields a complete entry, that entry is
converted and returned; no hypothesis on the original name's relaxed
query is needed. -/
theorem resolve_alias_relaxed_complete {ε : Type} (f : LiteLLMPricingFetcher ε)
    (pm : List (String × LiteLLMModelPricing)) (model a : String)
    (q : LiteLLMModelPricing)
    (hfetch : f.fetchModelPricing = .ok pm)
    (h0 : hasCompleteTokenPricing (firstCandidatePricing pm (strictCandidates model)) = false)
    (hal : CODEX_MODEL_ALIASES_MAP.lookup model = some a)
    (hq0 : hasCompleteTokenPricing (firstCandidatePricing pm (strictCandidates a)) = false)
    (hra : f.getModelPricing a = .ok (some q))
    (hcq : hasCompleteTokenPricing (some q) = true) :
    getPricing f model = .ok (normalizePricing q) := by
  simp [getPricing, getStrictPricing, getRelaxedPricing, hfetch, h0, hal, hq0, hra, hcq]

/-- If step 1 and the whole alias path fail to produce a complete
entry, and the relaxed lookup on the original name yields a complete
entry, that entry is converted and returned. -/
theorem resolve_relaxed_complete {ε : Type} (f : LiteLLMPricingFetcher ε)
    (pm : List (String × LiteLLMModelPricing)) (model : String)
    (q : LiteLLMModelPricing)
    (hfetch : f.fetchModelPricing = .ok pm)
    (h0 : hasCompleteTokenPricing (firstCandidatePricing pm (strictCandidates model)) = false)
    (hap : aliasPathFails f pm model)
    (hs : f.getModelPricing model = .ok (some q))
    (hcq : hasCompleteTokenPricing (some q) = true) :
    getPricing f model = .ok (normalizePricing q) := by
  rcases hap with hal | ⟨a, hal, hq0, ra, hra, hcra⟩
  · simp [getPricing, getStrictPricing, getRelaxedPricing, hfetch, h0, hal, hs, hcq]
  · simp [getPricing, getStrictPricing, getRelaxedPricing, hfetch, h0, hal, hq0,
      hra, hcra, hs, hcq]

/-- If all four avenues fail to produce a complete entry (with no
retrieval error), the resolver fails with the not-found error carrying
the original model name. -/
theorem resolve_all_incomplete {ε : Type} (f : LiteLLMPricingFetcher ε)
    (pm : List (String × LiteLLMModelPricing)) (model : String)
    (s : Option LiteLLMModelPricing)
    (hfetch : f.fetchModelPricing = .ok pm)
    (h0 : hasCompleteTokenPricing (firstCandidatePricing pm (strictCandidates model)) = false)
    (hap : aliasPathFails f pm model)
    (hs : f.getModelPricing model = .ok s)
    (hcs : hasCompleteTokenPricing s = false) :
    getPricing f model = .error (.notFound model) := by
  rcases hap with hal | ⟨a, hal, hq0, ra, hra, hcra⟩
  · cases hp0 : firstCandidatePricing pm (strictCandidates model) with
    | none =>
      cases s with
      | none => simp [getPricing, getStrictPricing, getRelaxedPricing, hfetch,
          h0, hal, hs, hcs, hp0]
      | some q => simp [getPricing, getStrictPricing, getRelaxedPricing, hfetch,
          h0, hal, hs, hcs, hp0]
    | some p =>
      rw [hp0] at h0
      cases s with
      | none => simp [getPricing, getStrictPricing, getRelaxedPricing, hfetch,
          h0, hal, hs, hcs, hp0]
      | some q => simp [getPricing, getStrictPricing, getRelaxedPricing, hfetch,
          h0, hal, hs, hcs, hp0]
  · cases hp0 : firstCandidatePricing pm (strictCandidates model) with
    | none =>
      cases s with
      | none => simp [getPricing, getStrictPricing, getRelaxedPricing, hfetch,
          h0, hal, hq0, hra, hcra, hs, hcs, hp0]
      | some q => simp [getPricing, getStrictPricing, getRelaxedPricing, hfetch,
          h0, hal, hq0, hra, hcra, hs, hcs, hp0]
    | some p =>
      rw [hp0] at h0
      cases s with
      | none => simp [getPricing, getStrictPricing, getRelaxedPricing, hfetch,
          h0, hal, hq0, hra, hcra, hs, hcs, hp0]
      | some q => simp [getPricing, getStrictPricing, getRelaxedPricing, hfetch,
          h0, hal, hq0, hra, hcra, hs, hcs, hp0]

/-- A failed batch fetch propagates as a retrieval error. -/
theorem resolve_fetch_error {ε : Type} (f : LiteLLMPricingFetcher ε)
    (model : String) (e : ε)
    (hfetch : f.fetchModelPricing = .error e) :
    getPricing f model = .error (.retrieval e) := by
  simp [getPricing, getStrictPricing, hfetch]

/-- A failed relaxed lookup on the alias propagates as a retrieval
error; no hypothesis on the original name's relaxed query is needed
because resolution stops at the error. -/
theorem resolve_alias_relaxed_error {ε : Type} (f : LiteLLMPricingFetcher ε)
    (pm : List (String × LiteLLMModelPricing)) (model a : String) (e : ε)
    (hfetch : f.fetchModelPricing = .ok pm)
    (h0 : hasCompleteTokenPricing (firstCandidatePricing pm (strictCandidates model)) = false)
    (hal : CODEX_MODEL_ALIASES_MAP.lookup model = some a)
    (hq0 : hasCompleteTokenPricing (firstCandidatePricing pm (strictCandidates a)) = false)
    (hra : f.getModelPricing a = .error e) :
    getPricing f model = .error (.retrieval e) := by
  simp [getPricing, getStrictPricing, getRelaxedPricing, hfetch, h0, hal, hq0, hra]

/-- A failed relaxed lookup on the original name (reached after the
alias path failed to produce a complete entry) propagates as a
retrieval error. -/
theorem resolve_relaxed_error {ε : Type} (f : LiteLLMPricingFetcher ε)
    (pm : List (String × LiteLLMModelPricing)) (model : String) (e : ε)
    (hfetch : f.fetchModelPricing = .ok pm)
    (h0 : hasCompleteTokenPricing (firstCandidatePricing pm (strictCandidates model)) = false)
    (hap : aliasPathFails f pm model)
    (hs : f.getModelPricing model = .error e) :
    getPricing f model = .error (.retrieval e) := by
  rcases hap with hal | ⟨a, hal, hq0, ra, hra, hcra⟩
  · simp [getPricing, getStrictPricing, getRelaxedPricing, hfetch, h0, hal, hs]
  · simp [getPricing, getStrictPricing, getRelaxedPricing, hfetch, h0, hal, hq0,
      hra, hcra, hs]

/-- A complete optional entry is a present entry. -/
theorem complete_isSome {s : Option LiteLLMModelPricing}
    (h : hasCompleteTokenPricing s = true) : ∃ q, s = some q := by
  cases s with
  | none => simp [hasCompleteTokenPricing] at h
  | some q => exact ⟨q, rfl⟩

/-- Inversion: every successful resolution comes from a single
complete entry produced by one of the four lookup avenues. -/
theorem getPricing_ok_inv {ε : Type} {f : LiteLLMPricingFetcher ε}
    {model : String} {r : ModelPricing}
    (h : getPricing f model = .ok r) :
    ∃ pm, f.fetchModelPricing = .ok pm ∧
      ∃ p, hasCompleteTokenPricing (some p) = true ∧ r = normalizePricing p ∧
        (firstCandidatePricing pm (strictCandidates model) = some p ∨
         (∃ a, CODEX_MODEL_ALIASES_MAP.lookup model = some a ∧
            (firstCandidatePricing pm (strictCandidates a) = some p ∨
             f.getModelPricing a = .ok (some p))) ∨
         f.getModelPricing model = .ok (some p)) := by
  cases hfetch : f.fetchModelPricing with
  | error e =>
    rw [resolve_fetch_error f model e hfetch] at h
    simp at h
  | ok pm =>
    refine ⟨pm, rfl, ?_⟩
    by_cases h0c :
        hasCompleteTokenPricing (firstCandidatePricing pm (strictCandidates model)) = true
    · obtain ⟨p, hp⟩ := complete_isSome h0c
      rw [hp] at h0c
      have hr : normalizePricing p = r := by
        simpa using (resolve_strict_complete f pm model p hfetch hp h0c).symm.trans h
      exact ⟨p, h0c, hr.symm, Or.inl hp⟩
    · have h0 :
          hasCompleteTokenPricing (firstCandidatePricing pm (strictCandidates model)) = false :=
        Bool.not_eq_true _ ▸ eq_false_of_ne_true h0c
      cases hal : CODEX_MODEL_ALIASES_MAP.lookup model with
      | none =>
        have hap : aliasPathFails f pm model := Or.inl hal
        cases hs : f.getModelPricing model with
        | error e =>
          rw [resolve_relaxed_error f pm model e hfetch h0 hap hs] at h
          simp at h
        | ok s =>
          by_cases hcs : hasCompleteTokenPricing s = true
          · obtain ⟨q, hq⟩ := complete_isSome hcs
            rw [hq] at hcs hs
            have hr : normalizePricing q = r := by
              simpa using
                (resolve_relaxed_complete f pm model q hfetch h0 hap hs hcs).symm.trans h
            exact ⟨q, hcs, hr.symm, Or.inr (Or.inr (by rw [hq]))⟩
          · have hcs' : hasCompleteTokenPricing s = false :=
              eq_false_of_ne_true hcs
            rw [resolve_all_incomplete f pm model s hfetch h0 hap hs hcs'] at h
            simp at h
      | some a =>
        by_cases hq0c :
            hasCompleteTokenPricing (firstCandidatePricing pm (strictCandidates a)) = true
        · obtain ⟨q, hq⟩ := complete_isSome hq0c
          rw [hq] at hq0c
          have hr : normalizePricing q = r := by
            simpa using
              (resolve_alias_strict_complete f pm model a q hfetch h0 hal hq hq0c).symm.trans h
          exact ⟨q, hq0c, hr.symm, Or.inr (Or.inl ⟨a, rfl, Or.inl hq⟩)⟩
        · have hq0 :
              hasCompleteTokenPricing (firstCandidatePricing pm (strictCandidates a)) = false :=
            eq_false_of_ne_true hq0c
          cases hra : f.getModelPricing a with
          | error e =>
            rw [resolve_alias_relaxed_error f pm model a e hfetch h0 hal hq0 hra] at h
            simp at h
          | ok ra =>
            by_cases hcra : hasCompleteTokenPricing ra = true
            · obtain ⟨q, hq⟩ := complete_isSome hcra
              rw [hq] at hcra hra
              have hr : normalizePricing q = r := by
                simpa using
                  (resolve_alias_relaxed_complete f pm model a q hfetch h0 hal hq0
                    hra hcra).symm.trans h
              exact ⟨q, hcra, hr.symm, Or.inr (Or.inl ⟨a, rfl, Or.inr hra⟩)⟩
            · have hcra' : hasCompleteTokenPricing ra = false :=
                eq_false_of_ne_true hcra
              have hap : aliasPathFails f pm model :=
                Or.inr ⟨a, hal, hq0, ra, hra, hcra'⟩
              cases hs : f.getModelPricing model with
              | error e =>
                rw [resolve_relaxed_error f pm model e hfetch h0 hap hs] at h
                simp at h
              | ok s =>
                by_cases hcs : hasCompleteTokenPricing s = true
                · obtain ⟨q, hq⟩ := complete_isSome hcs
                  rw [hq] at hcs hs
                  have hr : normalizePricing q = r := by
                    simpa using
                      (resolve_relaxed_complete f pm model q hfetch h0 hap hs
                        hcs).symm.trans h
                  exact ⟨q, hcs, hr.symm, Or.inr (Or.inr (by rw [hq]))⟩
                · have hcs' : hasCompleteTokenPricing s = false :=
                    eq_false_of_ne_true hcs
                  rw [resolve_all_incomplete f pm model s hfetch h0 hap hs hcs'] at h
                  simp at h

/-! ### Claims -/

/-- C1: the tie-break rule. (1) A complete entry found by the step-1
strict lookup is final: it is converted and returned with no
hypothesis on the relaxed query, so no later step can override it.
(2) When step 1 is incomplete and the alias's strict lookup is
complete, that entry wins, with no hypothesis on either relaxed query
— in particular the relaxed lookup on the original name is not
performed. (3) When the alias's strict lookup is also incomplete but
its relaxed lookup is complete, that entry wins, again with no
hypothesis on the original name's relaxed query. (4) Incomplete or
null later results never replace the current best: when the whole
alias path fails to produce a complete entry, the outcome is decided
by the original-relaxed lookup alone — a complete result is adopted,
a non-complete one leaves the resolver to fail. -/
theorem C1_tiebreak_order :
    (∀ (ε : Type) (f : LiteLLMPricingFetcher ε) pm model p,
      f.fetchModelPricing = .ok pm →
      firstCandidatePricing pm (strictCandidates model) = some p →
      hasCompleteTokenPricing (some p) = true →
      getPricing f model = .ok (normalizePricing p)) ∧
    (∀ (ε : Type) (f : LiteLLMPricingFetcher ε) pm model a q,
      f.fetchModelPricing = .ok pm →
      hasCompleteTokenPricing (firstCandidatePricing pm (strictCandidates model)) = false →
      CODEX_MODEL_ALIASES_MAP.lookup model = some a →
      firstCandidatePricing pm (strictCandidates a) = some q →
      hasCompleteTokenPricing (some q) = true →
      getPricing f model = .ok (normalizePricing q)) ∧
    (∀ (ε : Type) (f : LiteLLMPricingFetcher ε) pm model a q,
      f.fetchModelPricing = .ok pm →
      hasCompleteTokenPricing (firstCandidatePricing pm (strictCandidates model)) = false →
      CODEX_MODEL_ALIASES_MAP.lookup model = some a →
      hasCompleteTokenPricing (firstCandidatePricing pm (strictCandidates a)) = false →
      f.getModelPricing a = .ok (some q) →
      hasCompleteTokenPricing (some q) = true →
      getPricing f model = .ok (normalizePricing q)) ∧
    (∀ (ε : Type) (f : LiteLLMPricingFetcher ε) pm model s,
      f.fetchModelPricing = .ok pm →
      hasCompleteTokenPricing (firstCandidatePricing pm (strictCandidates model)) = false →
      aliasPathFails f pm model →
      f.getModelPricing model = .ok s →
      (hasCompleteTokenPricing s = true →
        ∃ q, s = some q ∧ getPricing f model = .ok (normalizePricing q)) ∧
      (hasCompleteTokenPricing s = false →
        getPricing f model = .error (.notFound model))) := by
  refine ⟨?_, ?_, ?_, ?_⟩
  · intro ε f pm model p hfetch hp hc
    exact resolve_strict_complete f pm model p hfetch hp hc
  · intro ε f pm model a q hfetch h0 hal hq hcq
    exact resolve_alias_strict_complete f pm model a q hfetch h0 hal hq hcq
  · intro ε f pm model a q hfetch h0 hal hq0 hra hcq
    exact resolve_alias_relaxed_complete f pm model a q hfetch h0 hal hq0 hra hcq
  · intro ε f pm model s hfetch h0 hap hs
    constructor
    · intro hcs
      obtain ⟨q, hq⟩ := complete_isSome hcs
      rw [hq] at hcs hs
      exact ⟨q, hq, resolve_relaxed_complete f pm model q hfetch h0 hap hs hcs⟩
    · intro hcs
      exact resolve_all_incomplete f pm model s hfetch h0 hap hs hcs

/-- Witness for C1: the alias-relaxed avenue of the tie-break rule at
a concrete fetcher — `gpt-5-codex` is absent from the catalog, its
alias `gpt-5` is only known to the relaxed lookup. -/
theorem C1_tiebreak_order_witness :
    getPricing fAliasRelaxed "gpt-5-codex" =
      .ok { inputCostPerMToken := 2 * MILLION
            cachedInputCostPerMToken := 2 * MILLION
            outputCostPerMToken := 3 * MILLION } := by
  have h := C1_tiebreak_order.2.2.1 String fAliasRelaxed [] "gpt-5-codex" "gpt-5"
    ⟨some 2, some 3, none, none, none, none⟩ rfl (by decide) (by decide) (by decide)
    rfl (by decide)
  rw [h]
  rfl

/-- C2: when the step-1 strict result is incomplete and the model has
an alias, the alias's strict lookup is tried, then its relaxed lookup,
and a complete entry found by either becomes the result, overriding
the incomplete step-1 entry. -/
theorem C2_alias_fallback_overrides {ε : Type} (f : LiteLLMPricingFetcher ε)
    (pm : List (String × LiteLLMModelPricing)) (model a : String)
    (hfetch : f.fetchModelPricing = .ok pm)
    (h0 : hasCompleteTokenPricing (firstCandidatePricing pm (strictCandidates model)) = false)
    (hal : CODEX_MODEL_ALIASES_MAP.lookup model = some a) :
    (∀ q, firstCandidatePricing pm (strictCandidates a) = some q →
      hasCompleteTokenPricing (some q) = true →
      getPricing f model = .ok (normalizePricing q)) ∧
    (∀ q, hasCompleteTokenPricing (firstCandidatePricing pm (strictCandidates a)) = false →
      f.getModelPricing a = .ok (some q) →
      hasCompleteTokenPricing (some q) = true →
      getPricing f model = .ok (normalizePricing q)) := by
  constructor
  · intro q hq hcq
    exact resolve_alias_strict_complete f pm model a q hfetch h0 hal hq hcq
  · intro q hq0 hra hcq
    exact resolve_alias_relaxed_complete f pm model a q hfetch h0 hal hq0 hra hcq

/-- Witness for C2: the spec's alias-fallback-on-partial-entry
example — `gpt-5.3-codex` holds only token-limit fields, and the
complete `gpt-5.2-codex` alias entry is returned converted. -/
theorem C2_alias_fallback_overrides_witness :
    getPricing fPartial "gpt-5.3-codex" =
      .ok { inputCostPerMToken := 2 * MILLION
            cachedInputCostPerMToken := 1 * MILLION
            outputCostPerMToken := 4 * MILLION } := by
  have h := (C2_alias_fallback_overrides fPartial pmPartial "gpt-5.3-codex"
      "gpt-5.2-codex" rfl (by decide) (by decide)).1
    ⟨some 2, some 4, some 1, none, none, none⟩ (by decide) (by decide)
  rw [h]
  rfl

/-- C3: the strict lookup. The candidate-key list is the bare name
followed by each provider prefix applied in configured order, and the
entry of the first candidate key present in the batch map is returned
— by existence, not completeness (no completeness hypothesis appears);
when no candidate is present the strict lookup returns null. -/
theorem C3_strict_lookup_first_existing :
    (∀ model, strictCandidates model =
      [model, "openai/" ++ model, "azure/" ++ model, "openrouter/openai/" ++ model]) ∧
    (∀ (ε : Type) (f : LiteLLMPricingFetcher ε) pm model p,
      f.fetchModelPricing = .ok pm →
      pm.lookup model = some p →
      getStrictPricing f model = .ok (some p)) ∧
    (∀ (ε : Type) (f : LiteLLMPricingFetcher ε) pm model p,
      f.fetchModelPricing = .ok pm →
      pm.lookup model = none →
      pm.lookup ("openai/" ++ model) = some p →
      getStrictPricing f model = .ok (some p)) ∧
    (∀ (ε : Type) (f : LiteLLMPricingFetcher ε) pm model p,
      f.fetchModelPricing = .ok pm →
      pm.lookup model = none →
      pm.lookup ("openai/" ++ model) = none →
      pm.lookup ("azure/" ++ model) = some p →
      getStrictPricing f model = .ok (some p)) ∧
    (∀ (ε : Type) (f : LiteLLMPricingFetcher ε) pm model p,
      f.fetchModelPricing = .ok pm →
      pm.lookup model = none →
      pm.lookup ("openai/" ++ model) = none →
      pm.lookup ("azure/" ++ model) = none →
      pm.lookup ("openrouter/openai/" ++ model) = some p →
      getStrictPricing f model = .ok (some p)) ∧
    (∀ (ε : Type) (f : LiteLLMPricingFetcher ε) pm model,
      f.fetchModelPricing = .ok pm →
      pm.lookup model = none →
      pm.lookup ("openai/" ++ model) = none →
      pm.lookup ("azure/" ++ model) = none →
      pm.lookup ("openrouter/openai/" ++ model) = none →
      getStrictPricing f model = .ok none) := by
  refine ⟨?_, ?_, ?_, ?_, ?_, ?_⟩
  · intro model
    simp [strictCandidates, CODEX_PROVIDER_PREFIXES]
  · intro ε f pm model p hfetch h1
    simp [getStrictPricing, hfetch, strictCandidates, CODEX_PROVIDER_PREFIXES,
      firstCandidatePricing, h1]
  · intro ε f pm model p hfetch h1 h2
    simp [getStrictPricing, hfetch, strictCandidates, CODEX_PROVIDER_PREFIXES,
      firstCandidatePricing, h1, h2]
  · intro ε f pm model p hfetch h1 h2 h3
    simp [getStrictPricing, hfetch, strictCandidates, CODEX_PROVIDER_PREFIXES,
      firstCandidatePricing, h1, h2, h3]
  · intro ε f pm model p hfetch h1 h2 h3 h4
    simp [getStrictPricing, hfetch, strictCandidates, CODEX_PROVIDER_PREFIXES,
      firstCandidatePricing, h1, h2, h3, h4]
  · intro ε f pm model hfetch h1 h2 h3 h4
    simp [getStrictPricing, hfetch, strictCandidates, CODEX_PROVIDER_PREFIXES,
      firstCandidatePricing, h1, h2, h3, h4]

/-- Witness for C3: the spec's provider-prefix example — the catalog
holds `openai/gpt-4` but not bare `gpt-4`, and the strict lookup
returns the prefixed (incomplete is irrelevant here) entry. -/
theorem C3_strict_lookup_first_existing_witness :
    getStrictPricing fPrefixed "gpt-4" =
      .ok (some ⟨some 7, some 11, none, none, none, none⟩) :=
  C3_strict_lookup_first_existing.2.2.1 String fPrefixed pmPrefixed "gpt-4"
    ⟨some 7, some 11, none, none, none, none⟩ rfl (by decide) (by decide)

/-- C4: a complete entry under the bare requested name resolves to its
per-token costs times one million; when the explicit cache-read cost
is present, `cachedInputCostPerMToken` is that cost times one
million. -/
theorem C4_exact_match_conversion {ε : Type} (f : LiteLLMPricingFetcher ε)
    (pm : List (String × LiteLLMModelPricing)) (model : String)
    (p : LiteLLMModelPricing) (ic oc : ℚ)
    (hfetch : f.fetchModelPricing = .ok pm)
    (hlook : pm.lookup model = some p)
    (hic : p.input_cost_per_token = some ic)
    (hoc : p.output_cost_per_token = some oc) :
    getPricing f model =
      .ok { inputCostPerMToken := ic * MILLION
            cachedInputCostPerMToken :=
              (p.cache_read_input_token_cost.getD ic) * MILLION
            outputCostPerMToken := oc * MILLION } ∧
    (∀ cc : ℚ, p.cache_read_input_token_cost = some cc →
      getPricing f model =
        .ok { inputCostPerMToken := ic * MILLION
              cachedInputCostPerMToken := cc * MILLION
              outputCostPerMToken := oc * MILLION }) := by
  have hp : firstCandidatePricing pm (strictCandidates model) = some p := by
    simp [strictCandidates, firstCandidatePricing, hlook]
  have hc : hasCompleteTokenPricing (some p) = true := by
    simp [hasCompleteTokenPricing, hic, hoc]
  have hres := resolve_strict_complete f pm model p hfetch hp hc
  constructor
  · rw [hres]
    cases hcc : p.cache_read_input_token_cost with
    | none => simp [normalizePricing, toPerMillion, hic, hoc, hcc]
    | some cc => simp [normalizePricing, toPerMillion, hic, hoc, hcc]
  · intro cc hcc
    rw [hres]
    simp [normalizePricing, toPerMillion, hic, hoc, hcc]

/-- Witness for C4 at a concrete catalog with an explicit cache-read
cost. -/
theorem C4_exact_match_conversion_witness :
    getPricing fExact "gpt-5" =
      .ok { inputCostPerMToken := 2 * MILLION
            cachedInputCostPerMToken := 5 * MILLION
            outputCostPerMToken := 3 * MILLION } := by
  have h := C4_exact_match_conversion fExact pmExact "gpt-5"
    ⟨some 2, some 3, some 5, none, none, none⟩ 2 3 rfl (by decide) rfl rfl
  simpa using h.2 5 rfl

/-- C5: when all four resolution avenues fail to produce a complete
entry (with no retrieval error), `getPricing` fails with the not-found
error carrying the originally requested model name — not the alias,
even when the alias path was attempted (`aliasPathFails` covers both
the no-alias and the attempted-alias case). -/
theorem C5_total_failure_original_name {ε : Type} (f : LiteLLMPricingFetcher ε)
    (pm : List (String × LiteLLMModelPricing)) (model : String)
    (s : Option LiteLLMModelPricing)
    (hfetch : f.fetchModelPricing = .ok pm)
    (h0 : hasCompleteTokenPricing (firstCandidatePricing pm (strictCandidates model)) = false)
    (hap : aliasPathFails f pm model)
    (hs : f.getModelPricing model = .ok s)
    (hcs : hasCompleteTokenPricing s = false) :
    getPricing f model = .error (.notFound model) :=
  resolve_all_incomplete f pm model s hfetch h0 hap hs hcs

/-- Witness for C5 at an aliased model over an empty catalog: the
error carries `gpt-5-codex`, the requested name, not its alias
`gpt-5`. -/
theorem C5_total_failure_original_name_witness :
    getPricing fEmpty "gpt-5-codex" = .error (.notFound "gpt-5-codex") :=
  C5_total_failure_original_name fEmpty [] "gpt-5-codex" none rfl (by decide)
    (Or.inr ⟨"gpt-5", by decide, by decide, none, rfl, by decide⟩) rfl (by decide)

/-- C6: failure propagation. (1) A batch-fetch error propagates as-is
(wrapped in the resolver's error sum but carrying the accessor's error
unmodified), with no further steps. (2) An error from the alias's
relaxed lookup propagates, with no hypothesis on the original name's
relaxed query — resolution stops at the error. (3) An error from the
relaxed lookup on the original name propagates. -/
theorem C6_error_propagation :
    (∀ (ε : Type) (f : LiteLLMPricingFetcher ε) model e,
      f.fetchModelPricing = .error e →
      getPricing f model = .error (.retrieval e)) ∧
    (∀ (ε : Type) (f : LiteLLMPricingFetcher ε) pm model a e,
      f.fetchModelPricing = .ok pm →
      hasCompleteTokenPricing (firstCandidatePricing pm (strictCandidates model)) = false →
      CODEX_MODEL_ALIASES_MAP.lookup model = some a →
      hasCompleteTokenPricing (firstCandidatePricing pm (strictCandidates a)) = false →
      f.getModelPricing a = .error e →
      getPricing f model = .error (.retrieval e)) ∧
    (∀ (ε : Type) (f : LiteLLMPricingFetcher ε) pm model e,
      f.fetchModelPricing = .ok pm →
      hasCompleteTokenPricing (firstCandidatePricing pm (strictCandidates model)) = false →
      aliasPathFails f pm model →
      f.getModelPricing model = .error e →
      getPricing f model = .error (.retrieval e)) := by
  refine ⟨?_, ?_, ?_⟩
  · intro ε f model e hfetch
    exact resolve_fetch_error f model e hfetch
  · intro ε f pm model a e hfetch h0 hal hq0 hra
    exact resolve_alias_relaxed_error f pm model a e hfetch h0 hal hq0 hra
  · intro ε f pm model e hfetch h0 hap hs
    exact resolve_relaxed_error f pm model e hfetch h0 hap hs

/-- Witness for C6: a failed batch fetch surfaces unmodified. -/
theorem C6_error_propagation_witness :
    getPricing fFetchErr "gpt-5" = .error (.retrieval "network failure") :=
  C6_error_propagation.1 String fFetchErr "gpt-5" "network failure" rfl

/-- C7: cache-cost defaulting — the conversion of an entry with no
explicit cache-read cost prices cached input the same as regular
input, and every successful resolution is the conversion of a single
complete entry, so the defaulting applies to the returned record. -/
theorem C7_cached_defaults_to_input :
    (∀ (p : LiteLLMModelPricing) (ic oc : ℚ),
      p.input_cost_per_token = some ic →
      p.output_cost_per_token = some oc →
      p.cache_read_input_token_cost = none →
      (normalizePricing p).cachedInputCostPerMToken =
        (normalizePricing p).inputCostPerMToken) ∧
    (∀ (ε : Type) (f : LiteLLMPricingFetcher ε) model r,
      getPricing f model = .ok r →
      ∃ p, hasCompleteTokenPricing (some p) = true ∧ r = normalizePricing p) := by
  constructor
  · intro p ic oc hic hoc hcc
    simp [normalizePricing, toPerMillion, hic, hcc]
  · intro ε f model r h
    obtain ⟨pm, -, p, hc, hr, -⟩ := getPricing_ok_inv h
    exact ⟨p, hc, hr⟩

/-- Witness for C7 at a concrete entry with no cache-read cost. -/
theorem C7_cached_defaults_to_input_witness :
    (normalizePricing ⟨some 7, some 11, none, none, none, none⟩).cachedInputCostPerMToken =
      (normalizePricing ⟨some 7, some 11, none, none, none, none⟩).inputCostPerMToken :=
  C7_cached_defaults_to_input.1 ⟨some 7, some 11, none, none, none, none⟩ 7 11 rfl rfl rfl

/-- C8: no partial result — every successful resolution is the
conversion of an entry that passed the completeness check, so the
returned input and output costs come from present per-token costs and
the cached-input cost from the explicit cache-read cost or, failing
that, the input cost: the zero default of the unit conversion is never
hit in a returned record. -/
theorem C8_complete_before_conversion {ε : Type} (f : LiteLLMPricingFetcher ε)
    (model : String) (r : ModelPricing)
    (h : getPricing f model = .ok r) :
    ∃ p ic oc,
      p.input_cost_per_token = some ic ∧
      p.output_cost_per_token = some oc ∧
      r = normalizePricing p ∧
      r.inputCostPerMToken = ic * MILLION ∧
      r.outputCostPerMToken = oc * MILLION ∧
      r.cachedInputCostPerMToken =
        (p.cache_read_input_token_cost.getD ic) * MILLION := by
  obtain ⟨pm, -, p, hc, hr, -⟩ := getPricing_ok_inv h
  rw [hasCompleteTokenPricing, Bool.and_eq_true, Option.isSome_iff_exists,
    Option.isSome_iff_exists] at hc
  obtain ⟨⟨ic, hic⟩, ⟨oc, hoc⟩⟩ := hc
  refine ⟨p, ic, oc, hic, hoc, hr, ?_, ?_, ?_⟩
  · rw [hr]
    simp [normalizePricing, toPerMillion, hic]
  · rw [hr]
    simp [normalizePricing, toPerMillion, hoc]
  · rw [hr]
    cases hcc : p.cache_read_input_token_cost with
    | none => simp [normalizePricing, toPerMillion, hic, hcc]
    | some cc => simp [normalizePricing, toPerMillion, hic, hcc]

/-- Witness for C8 at a concrete successful resolution. -/
theorem C8_complete_before_conversion_witness :
    ∃ p ic oc,
      p.input_cost_per_token = some ic ∧
      p.output_cost_per_token = some oc ∧
      ({ inputCostPerMToken := 2 * MILLION
         cachedInputCostPerMToken := 5 * MILLION
         outputCostPerMToken := 3 * MILLION } : ModelPricing) = normalizePricing p ∧
      ({ inputCostPerMToken := 2 * MILLION
         cachedInputCostPerMToken := 5 * MILLION
         outputCostPerMToken := 3 * MILLION } : ModelPricing).inputCostPerMToken =
        ic * MILLION ∧
      ({ inputCostPerMToken := 2 * MILLION
         cachedInputCostPerMToken := 5 * MILLION
         outputCostPerMToken := 3 * MILLION } : ModelPricing).outputCostPerMToken =
        oc * MILLION ∧
      ({ inputCostPerMToken := 2 * MILLION
         cachedInputCostPerMToken := 5 * MILLION
         outputCostPerMToken := 3 * MILLION } : ModelPricing).cachedInputCostPerMToken =
        (p.cache_read_input_token_cost.getD ic) * MILLION :=
  C8_complete_before_conversion fExact "gpt-5"
    { inputCostPerMToken := 2 * MILLION
      cachedInputCostPerMToken := 5 * MILLION
      outputCostPerMToken := 3 * MILLION } (by rfl)

/-- C9: single-entry provenance — every successful resolution is the
conversion of exactly one complete catalog entry, produced by one of
the four lookup avenues (step-1 strict, alias strict, alias relaxed,
or original relaxed); fields of entries found at different steps are
never merged. -/
theorem C9_single_entry_provenance {ε : Type} (f : LiteLLMPricingFetcher ε)
    (model : String) (r : ModelPricing)
    (h : getPricing f model = .ok r) :
    ∃ pm, f.fetchModelPricing = .ok pm ∧
      ∃ p, hasCompleteTokenPricing (some p) = true ∧ r = normalizePricing p ∧
        (firstCandidatePricing pm (strictCandidates model) = some p ∨
         (∃ a, CODEX_MODEL_ALIASES_MAP.lookup model = some a ∧
            (firstCandidatePricing pm (strictCandidates a) = some p ∨
             f.getModelPricing a = .ok (some p))) ∨
         f.getModelPricing model = .ok (some p)) :=
  getPricing_ok_inv h

/-- Witness for C9 at the partial-entry catalog: the result of
resolving `gpt-5.3-codex` is traceable to a single entry. -/
theorem C9_single_entry_provenance_witness :
    ∃ pm, fPartial.fetchModelPricing = .ok pm ∧
      ∃ p, hasCompleteTokenPricing (some p) = true ∧
        ({ inputCostPerMToken := 2 * MILLION
           cachedInputCostPerMToken := 1 * MILLION
           outputCostPerMToken := 4 * MILLION } : ModelPricing) = normalizePricing p ∧
        (firstCandidatePricing pm (strictCandidates "gpt-5.3-codex") = some p ∨
         (∃ a, CODEX_MODEL_ALIASES_MAP.lookup "gpt-5.3-codex" = some a ∧
            (firstCandidatePricing pm (strictCandidates a) = some p ∨
             fPartial.getModelPricing a = .ok (some p))) ∨
         fPartial.getModelPricing "gpt-5.3-codex" = .ok (some p)) :=
  C9_single_entry_provenance fPartial "gpt-5.3-codex"
    { inputCostPerMToken := 2 * MILLION
      cachedInputCostPerMToken := 1 * MILLION
      outputCostPerMToken := 4 * MILLION } (by rfl)

/-- C10: the static alias table maps `gpt-5-codex` to `gpt-5` (and
`gpt-5.3-codex` to `gpt-5.2-codex`); a catalog with no entry under any
candidate key for `gpt-5-codex` but a complete `gpt-5` entry resolves
`gpt-5-codex` to the converted `gpt-5` costs. -/
theorem C10_gpt5_codex_alias :
    CODEX_MODEL_ALIASES_MAP.lookup "gpt-5-codex" = some "gpt-5" ∧
    CODEX_MODEL_ALIASES_MAP.lookup "gpt-5.3-codex" = some "gpt-5.2-codex" ∧
    (∀ (ε : Type) (f : LiteLLMPricingFetcher ε) pm p,
      f.fetchModelPricing = .ok pm →
      firstCandidatePricing pm (strictCandidates "gpt-5-codex") = none →
      pm.lookup "gpt-5" = some p →
      hasCompleteTokenPricing (some p) = true →
      getPricing f "gpt-5-codex" = .ok (normalizePricing p)) := by
  refine ⟨by decide, by decide, ?_⟩
  intro ε f pm p hfetch h0 hlook hc
  have h0' : hasCompleteTokenPricing
      (firstCandidatePricing pm (strictCandidates "gpt-5-codex")) = false := by
    rw [h0]
    rfl
  have hq : firstCandidatePricing pm (strictCandidates "gpt-5") = some p := by
    simp [strictCandidates, firstCandidatePricing, hlook]
  exact resolve_alias_strict_complete f pm "gpt-5-codex" "gpt-5" p hfetch h0'
    (by decide) hq hc

/-- Witness for C10: `gpt-5-codex` absent from the catalog, complete
`gpt-5` present. -/
theorem C10_gpt5_codex_alias_witness :
    getPricing fExact "gpt-5-codex" =
      .ok { inputCostPerMToken := 2 * MILLION
            cachedInputCostPerMToken := 5 * MILLION
            outputCostPerMToken := 3 * MILLION } := by
  have h := C10_gpt5_codex_alias.2.2 String fExact pmExact
    ⟨some 2, some 3, some 5, none, none, none⟩ rfl (by decide) (by decide) (by decide)
  rw [h]
  rfl

end CodexPricing
